import Mathlib

/-!
Shallow embedding of the boundary-condition identification scheme of
`Examples/src/bcHandler/bound_cond.hpp` and of the scalar integrands of
`Examples/src/QuadratureRule/DynamicIntegrands/integrands.cpp`.

C++ `double` values are modelled as real numbers; the `double const *`
coordinate pointer is modelled as a list of reals.  `std::function` values
are modelled as `Option` of a Lean function: a default-constructed
`std::function` is empty (`none`), and invoking it throws
`std::bad_function_call`, modelled by `Except.error`.

The header's functor definitions for `std::less` / `std::equal_to` over
`BCId` are syntactically broken C++ (the spec records this); we embed the
comparison logic they spell out, reading `std::less<T>(x, y)` as applying
the `std::less<T>` comparator to `x` and `y`.  Enumerators compare by
their underlying integer values, so `BCType` is compared through `toNat`.
-/

namespace FEM

/-- The enumeration `BCType { Dirichlet, Neumann, Robin, Generic, Other }`. -/
inductive BCType where
  | Dirichlet
  | Neumann
  | Robin
  | Generic
  | Other
deriving DecidableEq, Fintype

/-- Underlying enumerator value of a `BCType` (declaration order, from 0). -/
def BCType.toNat : BCType → Nat
  | .Dirichlet => 0
  | .Neumann => 1
  | .Robin => 2
  | .Generic => 3
  | .Other => 4

/-- `std::less<BCType>`: enumerators compare by underlying value. -/
def lessBCType (a b : BCType) : Bool := decide (a.toNat < b.toNat)

/-- The identifier `BCId<BCName>`: a `BCType` plus a name. -/
structure BCId (Name : Type) where
  type : BCType
  name : Name
deriving DecidableEq

/-- `make_BCId`: utility building an identifier. -/
def make_BCId {Name : Type} (typ : BCType) (n : Name) : BCId Name := ⟨typ, n⟩

/-- The comparator `std::less<BCId<BCName>>` of `bound_cond.hpp`:
if neither type is less than the other (same type), compare names,
otherwise compare types. -/
def lessBCId {Name : Type} [LinearOrder Name] (a b : BCId Name) : Bool :=
  if !lessBCType a.type b.type && !lessBCType b.type a.type then
    decide (a.name < b.name)
  else
    lessBCType a.type b.type

/-- `std::equal_to<BCId<BCName>>` of `bound_cond.hpp`: implemented in terms
of `std::less<BCId<BCName>>`, never independently. -/
def equalBCId {Name : Type} [LinearOrder Name] (a b : BCId Name) : Bool :=
  !lessBCId a b && !lessBCId b a

theorem BCType.toNat_inj (a b : BCType) (h : a.toNat = b.toNat) : a = b := by
  cases a <;> cases b <;> simp_all [BCType.toNat]

theorem BCId.ext_eq {Name : Type} (a b : BCId Name) (ht : a.type = b.type)
    (hn : a.name = b.name) : a = b := by
  cases a
  cases b
  simp_all

/-- Characterisation of the identifier comparator as a lexicographic order. -/
theorem lessBCId_iff {Name : Type} [LinearOrder Name] (a b : BCId Name) :
    lessBCId a b = true ↔
      (a.type.toNat < b.type.toNat ∨ (a.type = b.type ∧ a.name < b.name)) := by
  unfold lessBCId lessBCType
  by_cases h1 : a.type.toNat < b.type.toNat
  · have h2 : ¬ b.type.toNat < a.type.toNat := by omega
    simp [h1, h2]
  · by_cases h2 : b.type.toNat < a.type.toNat
    · have hne : a.type ≠ b.type := by
        intro h
        rw [h] at h2
        omega
      simp [h1, h2, hne]
    · have heq : a.type = b.type := BCType.toNat_inj _ _ (by omega)
      simp [h1, h2, heq]

theorem lessBCId_irrefl {Name : Type} [LinearOrder Name] (a : BCId Name) :
    lessBCId a a = false := by
  rw [Bool.eq_false_iff]
  intro h
  rcases (lessBCId_iff a a).1 h with h1 | ⟨_, h2⟩
  · omega
  · exact absurd h2 (lt_irrefl _)

theorem lessBCId_trans {Name : Type} [LinearOrder Name] {a b c : BCId Name}
    (hab : lessBCId a b = true) (hbc : lessBCId b c = true) :
    lessBCId a c = true := by
  rw [lessBCId_iff] at hab hbc ⊢
  rcases hab with h1 | ⟨he1, hn1⟩ <;> rcases hbc with h2 | ⟨he2, hn2⟩
  · exact Or.inl (Nat.lt_trans h1 h2)
  · exact Or.inl (by rw [← he2]; exact h1)
  · exact Or.inl (by rw [he1]; exact h2)
  · exact Or.inr ⟨he1.trans he2, lt_trans hn1 hn2⟩

theorem lessBCId_asymm {Name : Type} [LinearOrder Name] {a b : BCId Name}
    (hab : lessBCId a b = true) (hba : lessBCId b a = true) : False := by
  have h := lessBCId_trans hab hba
  rw [lessBCId_irrefl] at h
  exact Bool.false_ne_true h

theorem lessBCId_connex {Name : Type} [LinearOrder Name] {a b : BCId Name}
    (hne : a ≠ b) : lessBCId a b = true ∨ lessBCId b a = true := by
  by_cases ht : a.type = b.type
  · have hnn : a.name ≠ b.name := by
      intro h
      exact hne (BCId.ext_eq a b ht h)
    rcases lt_or_gt_of_ne hnn with h | h
    · exact Or.inl ((lessBCId_iff a b).2 (Or.inr ⟨ht, h⟩))
    · exact Or.inr ((lessBCId_iff b a).2 (Or.inr ⟨ht.symm, h⟩))
  · have hts : a.type.toNat ≠ b.type.toNat := by
      intro h
      exact ht (BCType.toNat_inj _ _ h)
    rcases Nat.lt_or_ge a.type.toNat b.type.toNat with h | h
    · exact Or.inl ((lessBCId_iff a b).2 (Or.inl h))
    · have h2 : b.type.toNat < a.type.toNat := by omega
      exact Or.inr ((lessBCId_iff b a).2 (Or.inl h2))

/-- The type `BcFun = std::function<double (double const t, double const * coord)>`.
An empty `std::function` is `none`; invoking it throws. -/
abbrev BcFun := Option (ℝ → List ℝ → ℝ)

/-- The header declares `BCFun zerofun;` (a typo for `BcFun`): a namespace-scope
default-constructed `std::function`, which is empty. -/
def zerofun : BcFun := none

/-- The class `BCBase`: entity indices, evaluation function, identifier.
`BCBase` instantiates `BCId` at string names by default. -/
structure BCBase (Name : Type) where
  _entities : List Int
  _fun : BcFun
  _id : BCId Name

/-- The `BCBase(BCType, name, BcFun)` constructor:
`_entities()` (empty), `_fun(fun)`, `_id(t, n)`. -/
def BCBase.construct {Name : Type} (t : BCType) (n : Name) (fn : BcFun) :
    BCBase Name :=
  { _entities := [], _fun := fn, _id := ⟨t, n⟩ }

/-- The default-argument constructor call `BCBase()`:
`t = Dirichlet`, `n = std::string("Homogeneous")`, `fun = zerofun`. -/
def BCBase.mkDefault : BCBase String :=
  BCBase.construct BCType.Dirichlet "Homogeneous" zerofun

/-- `BCBase::get_Id`. -/
def BCBase.get_Id {Name : Type} (b : BCBase Name) : BCId Name := b._id

/-- `BCBase::set_Id`. -/
def BCBase.set_Id {Name : Type} (b : BCBase Name) (id : BCId Name) :
    BCBase Name :=
  { b with _id := id }

/-- `BCBase::set_fun`: assigns `_fun` (a `mutable` member, so the C++ method is
`const`); modelled as returning the updated record. -/
def BCBase.set_fun {Name : Type} (b : BCBase Name) (f : BcFun) : BCBase Name :=
  { b with _fun := f }

/-- `BCBase::name`. -/
def BCBase.name {Name : Type} (b : BCBase Name) : Name := b._id.name

/-- `BCBase::type`. -/
def BCBase.type {Name : Type} (b : BCBase Name) : BCType := b._id.type

/-- `BCBase::apply`: calls the stored `std::function`; calling an empty
`std::function` throws `std::bad_function_call`. -/
def BCBase.apply {Name : Type} (b : BCBase Name) (t : ℝ) (coord : List ℝ) :
    Except String ℝ :=
  match b._fun with
  | some f => Except.ok (f t coord)
  | none => Except.error "bad_function_call"

/-- Modelled from the spec: `BCBase::set_entities` is only declared in
`bound_cond.hpp` (its body lives in a source file not present here);
§4.2 `setEntities(indices)` replaces the entity index list wholesale, under
the same mutable-through-const contract as `set_fun`. -/
def BCBase.set_entities {Name : Type} (b : BCBase Name) (e : List Int) :
    BCBase Name :=
  { b with _entities := e }

/-- `BCBase::entities`. -/
def BCBase.entities {Name : Type} (b : BCBase Name) : List Int := b._entities

/-- `operator<(BCBase, BCBase)`: `l._id < r._id`. -/
def BCBase.lt {Name : Type} [LinearOrder Name] (l r : BCBase Name) : Bool :=
  lessBCId l._id r._id

/-- `operator==(BCBase, BCBase)`: `l._id == r._id`. -/
def BCBase.beq {Name : Type} [LinearOrder Name] (l r : BCBase Name) : Bool :=
  equalBCId l._id r._id

/-- The predicate object `isBCTypeEqual`: stores a `BCType` and tests
`b._id.type == _type`. -/
def isBCTypeEqual {Name : Type} (t : BCType) (b : BCBase Name) : Bool :=
  b._id.type == t

/-- The predicate object `isBCNameEqual`: stores a name and tests
`b._id.name == _name`. -/
def isBCNameEqual {Name : Type} [DecidableEq Name] (n : Name)
    (b : BCBase Name) : Bool :=
  b._id.name == n

/-- `fsincos` from `integrands.cpp`: `sin(x) * cos(x)`. -/
noncomputable def fsincos (x : ℝ) : ℝ := Real.sin x * Real.cos x

/-- `square` from `integrands.cpp`: `x * x`. -/
def square (x : ℝ) : ℝ := x * x

/- Concrete identifiers and records used by the witnesses below. -/

def idD0 : BCId ℕ := ⟨BCType.Dirichlet, 0⟩

def idD1 : BCId ℕ := ⟨BCType.Dirichlet, 1⟩

def idN0 : BCId ℕ := ⟨BCType.Neumann, 0⟩

def bD0 : BCBase ℕ := BCBase.construct BCType.Dirichlet 0 zerofun

def bD0e : BCBase ℕ :=
  (BCBase.construct BCType.Dirichlet 0 zerofun).set_entities [1, 2]

def bN0 : BCBase ℕ := BCBase.construct BCType.Neumann 0 zerofun

/-- C1: the claim says `apply(t, coord)` on a record bound to the default
function returns 0.0 and never errors.  The code instead leaves `zerofun`
a default-constructed (empty) `std::function`, so `apply` on the default
record throws `std::bad_function_call`: evaluation of the embedded code at
the failing input. -/
theorem bcBase_default_apply_raises :
    BCBase.mkDefault.apply 0 [] = Except.error "bad_function_call" := rfl

/-- C2: the identifier comparator is two-level lexicographic: when the kinds
differ the result is exactly the kind comparison (names are not consulted);
when the kinds agree the result is exactly the name comparison. -/
theorem bcId_two_level_lex {Name : Type} [LinearOrder Name] (a b : BCId Name) :
    (a.type ≠ b.type → lessBCId a b = lessBCType a.type b.type)
  ∧ (a.type = b.type → lessBCId a b = decide (a.name < b.name)) := by
  constructor
  · intro hne
    have hts : a.type.toNat ≠ b.type.toNat := fun h =>
      hne (BCType.toNat_inj _ _ h)
    unfold lessBCId
    have hcond :
        (!lessBCType a.type b.type && !lessBCType b.type a.type) = false := by
      unfold lessBCType
      rcases Nat.lt_or_ge a.type.toNat b.type.toNat with h1 | h1
      · simp [h1]
      · have h2 : b.type.toNat < a.type.toNat := by omega
        simp [h2]
    rw [hcond]
    simp
  · intro heq
    unfold lessBCId
    have hcond :
        (!lessBCType a.type b.type && !lessBCType b.type a.type) = true := by
      unfold lessBCType
      rw [heq]
      simp
    rw [hcond]
    simp

/-- Witness for C2 at concrete identifiers. -/
theorem bcId_two_level_lex_witness :
    lessBCId idD0 idN0 = lessBCType idD0.type idN0.type
  ∧ lessBCId idD0 idD1 = decide (idD0.name < idD1.name) :=
  ⟨(bcId_two_level_lex idD0 idN0).1 (by decide),
   (bcId_two_level_lex idD0 idD1).2 (by decide)⟩

/-- C3: `equal_to` on identifiers is derived strictly from the comparator:
it is definitionally `!less(a,b) && !less(b,a)`, it holds exactly when
neither strict comparison holds, and it coincides with identifier
equality. -/
theorem equalBCId_spec {Name : Type} [LinearOrder Name] (a b : BCId Name) :
    equalBCId a b = (!lessBCId a b && !lessBCId b a)
  ∧ (equalBCId a b = true ↔ (lessBCId a b = false ∧ lessBCId b a = false))
  ∧ (equalBCId a b = true ↔ a = b) := by
  refine ⟨rfl, ?_, ?_⟩
  · unfold equalBCId
    simp
  · constructor
    · intro h
      unfold equalBCId at h
      simp only [Bool.and_eq_true, Bool.not_eq_true'] at h
      by_contra hne
      rcases lessBCId_connex hne with hc | hc
      · rw [h.1] at hc
        exact Bool.false_ne_true hc
      · rw [h.2] at hc
        exact Bool.false_ne_true hc
    · intro h
      subst h
      unfold equalBCId
      rw [lessBCId_irrefl]
      rfl

/-- Witness for C3 at concrete identifiers. -/
theorem equalBCId_spec_witness :
    equalBCId idD0 idD0 = (!lessBCId idD0 idD0 && !lessBCId idD0 idD0)
  ∧ (equalBCId idD0 idD0 = true ↔
      (lessBCId idD0 idD0 = false ∧ lessBCId idD0 idD0 = false))
  ∧ (equalBCId idD0 idD0 = true ↔ idD0 = idD0) :=
  equalBCId_spec idD0 idD0

/-- C4: the identifier comparator is a strict total order: irreflexive,
transitive, asymmetric, and any two distinct identifiers are comparable. -/
theorem bcId_less_strictOrder {Name : Type} [LinearOrder Name]
    (a b c : BCId Name) :
    lessBCId a a = false
  ∧ (lessBCId a b = true → lessBCId b c = true → lessBCId a c = true)
  ∧ ¬(lessBCId a b = true ∧ lessBCId b a = true)
  ∧ (a ≠ b → lessBCId a b = true ∨ lessBCId b a = true) :=
  ⟨lessBCId_irrefl a,
   fun h1 h2 => lessBCId_trans h1 h2,
   fun h => lessBCId_asymm h.1 h.2,
   fun h => lessBCId_connex h⟩

/-- Witness for C4 at concrete identifiers, discharging each hypothesis. -/
theorem bcId_less_strictOrder_witness :
    lessBCId idD0 idD0 = false
  ∧ lessBCId idD0 idN0 = true
  ∧ ¬(lessBCId idD0 idD1 = true ∧ lessBCId idD1 idD0 = true)
  ∧ (lessBCId idD0 idN0 = true ∨ lessBCId idN0 idD0 = true) :=
  ⟨(bcId_less_strictOrder idD0 idD1 idN0).1,
   (bcId_less_strictOrder idD0 idD1 idN0).2.1 (by decide) (by decide),
   (bcId_less_strictOrder idD0 idD1 idN0).2.2.1,
   (bcId_less_strictOrder idD0 idN0 idN0).2.2.2 (by decide)⟩

/-- C5: record-level `operator<` and `operator==` are decided purely by the
identifiers: they are invariant under replacing a record by any record with
the same identifier, and two records built from the same `(kind, name)` with
different entity lists and functions compare equal. -/
theorem bcBase_compare_by_id {Name : Type} [LinearOrder Name]
    (l r l2 r2 : BCBase Name) (hl : l._id = l2._id) (hr : r._id = r2._id)
    (k : BCType) (n : Name) (e1 e2 : List Int) (f1 f2 : BcFun) :
    BCBase.lt l r = BCBase.lt l2 r2
  ∧ BCBase.beq l r = BCBase.beq l2 r2
  ∧ BCBase.beq ((BCBase.construct k n f1).set_entities e1)
      ((BCBase.construct k n f2).set_entities e2) = true := by
  refine ⟨?_, ?_, ?_⟩
  · unfold BCBase.lt
    rw [hl, hr]
  · unfold BCBase.beq
    rw [hl, hr]
  · show equalBCId (BCId.mk k n) (BCId.mk k n) = true
    unfold equalBCId
    rw [lessBCId_irrefl]
    rfl

/-- Witness for C5 at concrete records, discharging each hypothesis. -/
theorem bcBase_compare_by_id_witness :
    (BCBase.lt bD0 bN0 = BCBase.lt bD0e bN0
      ∧ BCBase.beq bD0 bN0 = BCBase.beq bD0e bN0)
  ∧ BCBase.beq ((BCBase.construct BCType.Robin (5 : ℕ) zerofun).set_entities [1])
      ((BCBase.construct BCType.Robin (5 : ℕ) (some fun t _ => t)).set_entities [2])
      = true :=
  ⟨⟨(bcBase_compare_by_id bD0 bN0 bD0e bN0 rfl rfl BCType.Robin 5 [] []
      zerofun zerofun).1,
    (bcBase_compare_by_id bD0 bN0 bD0e bN0 rfl rfl BCType.Robin 5 [] []
      zerofun zerofun).2.1⟩,
   (bcBase_compare_by_id bD0 bN0 bD0e bN0 rfl rfl BCType.Robin 5 [1] [2]
      zerofun (some fun t _ => t)).2.2⟩

/-- C6: `set_fun` changes only the function and `set_entities` changes only
the entity list; the identifier — hence the sort key and the comparison
against any other record — is unchanged by either operation. -/
theorem bcBase_set_frame {Name : Type} [LinearOrder Name]
    (b c : BCBase Name) (f : BcFun) (e : List Int) :
    ((b.set_fun f)._id = b._id
      ∧ (b.set_fun f)._entities = b._entities
      ∧ (b.set_fun f)._fun = f)
  ∧ ((b.set_entities e)._id = b._id
      ∧ (b.set_entities e)._fun = b._fun
      ∧ (b.set_entities e)._entities = e)
  ∧ (BCBase.lt (b.set_fun f) c = BCBase.lt b c
      ∧ BCBase.lt c (b.set_fun f) = BCBase.lt c b
      ∧ BCBase.beq (b.set_fun f) c = BCBase.beq b c)
  ∧ (BCBase.lt (b.set_entities e) c = BCBase.lt b c
      ∧ BCBase.lt c (b.set_entities e) = BCBase.lt c b
      ∧ BCBase.beq (b.set_entities e) c = BCBase.beq b c) :=
  ⟨⟨rfl, rfl, rfl⟩, ⟨rfl, rfl, rfl⟩, ⟨rfl, rfl, rfl⟩, ⟨rfl, rfl, rfl⟩⟩

/-- C7: `square(x) = x * x` and `fsincos(x) = sin(x) * cos(x)`, pure;
in particular `square 3 = 9` and `fsincos 0 = 0`. -/
theorem integrands_spec (x : ℝ) :
    (square x = x * x ∧ fsincos x = Real.sin x * Real.cos x)
  ∧ (square 3 = 9 ∧ fsincos 0 = 0) := by
  refine ⟨⟨rfl, rfl⟩, by norm_num [square], by simp [fsincos]⟩

/-- C8: a record constructed from `(k, n, f)` has an empty entity list, and
its accessors return the construction arguments. -/
theorem bcBase_construct_spec {Name : Type} (k : BCType) (n : Name)
    (f : BcFun) :
    (BCBase.construct k n f).entities = ([] : List Int)
  ∧ (BCBase.construct k n f).name = n
  ∧ (BCBase.construct k n f).type = k
  ∧ (BCBase.construct k n f).get_Id = ⟨k, n⟩
  ∧ (BCBase.construct k n f)._fun = f :=
  ⟨rfl, rfl, rfl, rfl, rfl⟩

/-- C9: `isBCTypeEqual k` holds on a record exactly when the record's kind is
`k`, and filtering a list of records with it yields precisely the order-
preserving sublist of records whose kind is `k`. -/
theorem isBCTypeEqual_spec {Name : Type} (k : BCType) (b : BCBase Name)
    (l : List (BCBase Name)) :
    (isBCTypeEqual k b = true ↔ b.type = k)
  ∧ (l.filter (isBCTypeEqual k)).Sublist l
  ∧ (∀ x, x ∈ l.filter (isBCTypeEqual k) ↔ x ∈ l ∧ x.type = k) := by
  refine ⟨?_, List.filter_sublist l, ?_⟩
  · unfold isBCTypeEqual BCBase.type
    simp
  · intro x
    rw [List.mem_filter]
    unfold isBCTypeEqual BCBase.type
    simp

/-- C10: the undocumented construction defaults: a record constructed with no
arguments has kind `Dirichlet`, name `"Homogeneous"`, the default function
`zerofun`, and an empty entity list. -/
theorem bcBase_default_fields :
    BCBase.mkDefault.type = BCType.Dirichlet
  ∧ BCBase.mkDefault.name = "Homogeneous"
  ∧ BCBase.mkDefault._fun = zerofun
  ∧ BCBase.mkDefault._entities = [] :=
  ⟨rfl, rfl, rfl, rfl⟩

end FEM
